import Mathlib

/-
Verification of the AnnenBites recommendation and intake-aggregation core.

The Python source (src/helpers.py, src/app.py) is embedded shallowly:

* Python `str` operations (`lower`, `strip`, `split`, `replace`, `in`) are
  modelled by structural functions over the character list of a `String`,
  matching Python semantics on the ASCII data the application handles.
* Python floats are modelled as exact rationals (`ℚ`); the only numeric
  literals in the source are short decimals, which are exact in both.
* SQLite rows are records with `Option` fields: a NULL numeric field is
  `none` and the Python `row["x"] or 0` idiom becomes `Option.getD 0`
  (NULL and 0 coincide under `or 0`, so this is faithful).
* The Python `set` built by `_load_dietary_flags` is modelled as the list
  of its insertion attempts; only membership is ever observed.
-/

/-- Model of Python `str.lower()` (ASCII case mapping, as used by the data). -/
def pyLower (s : String) : String :=
  ⟨s.data.map Char.toLower⟩

/-- Model of Python `str.strip()`: drop leading and trailing whitespace. -/
def pyStrip (s : String) : String :=
  ⟨((s.data.dropWhile Char.isWhitespace).reverse.dropWhile Char.isWhitespace).reverse⟩

/-- Splitting accumulator: Python `str.split(sep)` for a one-character
separator, keeping empty pieces exactly as Python does. -/
def splitChAux (sep : Char) : List Char → List Char → List (List Char)
  | [], cur => [cur.reverse]
  | c :: cs, cur =>
      if c == sep then cur.reverse :: splitChAux sep cs []
      else splitChAux sep cs (c :: cur)

/-- Model of Python `s.split(sep)` for a one-character separator. -/
def pySplit (s : String) (sep : Char) : List String :=
  (splitChAux sep s.data []).map (fun l => ⟨l⟩)

/-- Model of Python `s.replace(";", ",")` (both patterns one character). -/
def pyReplaceSemi (s : String) : String :=
  ⟨s.data.map (fun c => if c == ';' then ',' else c)⟩

/-- Does the second list start with the first? -/
def strStarts : List Char → List Char → Bool
  | [], _ => true
  | _ :: _, [] => false
  | a :: as, b :: bs => a == b && strStarts as bs

/-- Scan every suffix of the haystack for the needle. -/
def strContainsAux (needle : List Char) : List Char → Bool
  | [] => needle.isEmpty
  | c :: cs => strStarts needle (c :: cs) || strContainsAux needle cs

/-- Model of Python `needle in haystack` (substring containment). -/
def pyIn (needle haystack : String) : Bool :=
  strContainsAux needle.data haystack.data

/-- A menu_items row as the core reads it (src/app.py lines 70-88): nullable
name/tags text and nullable numeric macro fields.  The id/date/meal/location
columns are never read by the functions verified here and are omitted. -/
structure MenuItem where
  name : Option String
  tags : Option String
  calories : Option ℚ
  protein : Option ℚ
  carbs : Option ℚ
  fat : Option ℚ
deriving DecidableEq, Repr

/-- A user_preferences row as the core reads it (src/app.py lines 91-105).
height_cm/weight_kg are never read by the scoring or filtering code
(src/helpers.py, src/app.py) and are omitted. -/
structure UserPreferences where
  dietary_restrictions : Option String
  wellness_goal : Option String
  fav_cuisines : Option String
  disliked_items : Option String
deriving DecidableEq, Repr

/-- src/helpers.py lines 22-32: `parse_list_field`.
Python: `if not field: return []` then
`[item.strip().lower() for item in field.split(",")]`.
The argument is `Option String` because callers pass `prefs.get(...)`,
which may be `None`; Python `not field` is true for `None` and `""`. -/
def parse_list_field (field : Option String) : List String :=
  match field with
  | none => []
  | some s => if s = "" then [] else (pySplit s ',').map (fun t => pyLower (pyStrip t))

/-- src/app.py lines 252-267: `_load_dietary_flags`.  Python builds a `set`
by lowering, rewriting `;` to `,`, splitting on `,`, stripping each part and
adding the non-empty parts; we keep the list of added parts (membership is
the only observation ever made of the set). -/
def _load_dietary_flags (prefs_row : Option UserPreferences) : List String :=
  match prefs_row with
  | none => []
  | some p =>
      ((pySplit (pyReplaceSemi (pyLower (p.dietary_restrictions.getD ""))) ',').map
        pyStrip).filter (fun part => part ≠ "")

/-- src/app.py lines 207-219: `MEAT_WORDS`. -/
def MEAT_WORDS : List String :=
  ["chicken", "beef", "pork", "bacon", "ham", "turkey", "sausage",
   "pepperoni", "meatball", "meatballs", "steak"]

/-- src/app.py lines 221-230: `SEAFOOD_WORDS`. -/
def SEAFOOD_WORDS : List String :=
  ["fish", "salmon", "tuna", "shrimp", "crab", "lobster", "cod", "tilapia"]

/-- src/app.py line 288: the inline dairy/egg word list of the vegan check. -/
def DAIRY_EGG_WORDS : List String :=
  ["cheese", "egg", "eggs", "milk", "yogurt", "butter", "cream"]

/-- The lower-cased name-and-tags blob `f"{name} {tags}"` built at
src/app.py lines 275-277. -/
def itemBlob (item : MenuItem) : String :=
  pyLower (item.name.getD "") ++ " " ++ pyLower (item.tags.getD "")

/-- src/app.py lines 270-291: `_violates_dietary_restrictions`. -/
def _violates_dietary_restrictions (item : MenuItem) (dietary_flags : List String) : Bool :=
  let text := itemBlob item
  if "vegetarian" ∈ dietary_flags ∧
      (MEAT_WORDS ++ SEAFOOD_WORDS).any (fun w => pyIn w text) then
    true
  else if "vegan" ∈ dietary_flags ∧
      ((MEAT_WORDS ++ SEAFOOD_WORDS).any (fun w => pyIn w text)
        ∨ DAIRY_EGG_WORDS.any (fun w => pyIn w text)) then
    true
  else
    false

/-- src/app.py lines 191-204: `CATEGORY_KEYWORDS`, an insertion-ordered dict
modelled as an association list in declaration order. -/
def CATEGORY_KEYWORDS : List (String × List String) :=
  [("waffle", ["waffle"]),
   ("pancake", ["pancake"]),
   ("bagel", ["bagel"]),
   ("bread", ["toast", "bread"]),
   ("eggs", ["egg", "omelet", "omelette"]),
   ("yogurt", ["yogurt"]),
   ("oatmeal", ["oatmeal", "oats"]),
   ("salad", ["salad"]),
   ("soup", ["soup"]),
   ("sandwich", ["sandwich", "wrap"]),
   ("pizza", ["pizza"]),
   ("burger", ["burger"])]

/-- src/app.py lines 233-239: `infer_category`.  The Python parameter is a
`str` guarded by `(name or "")`; callers pass the nullable name column, so
the argument is `Option String` here. -/
def infer_category (name : Option String) : String :=
  let lower := pyLower (name.getD "")
  match CATEGORY_KEYWORDS.find? (fun ck => ck.2.any (fun k => pyIn k lower)) with
  | some ck => ck.1
  | none => "other"

/-- src/helpers.py lines 35-96: `score_menu_item`. -/
def score_menu_item (item : MenuItem) (prefs : Option UserPreferences) : ℚ :=
  match prefs with
  | none =>
      let calories := item.calories.getD 0
      let protein := item.protein.getD 0
      protein * 0.3 - calories * 0.05
  | some p =>
      let dietary := parse_list_field p.dietary_restrictions
      let fav_cuisines := parse_list_field p.fav_cuisines
      let dislikes := parse_list_field p.disliked_items
      let goal := pyLower (p.wellness_goal.getD "")
      let tags := parse_list_field item.tags
      let name := pyLower (item.name.getD "")
      let calories := item.calories.getD 0
      let protein := item.protein.getD 0
      let score : ℚ := 0.0
      let score := if "vegetarian" ∈ dietary ∧ "vegetarian" ∉ tags then score - 100 else score
      let score := if "vegan" ∈ dietary ∧ "vegan" ∉ tags then score - 100 else score
      let score := if "gluten-free" ∈ dietary ∧ "gluten-free" ∉ tags then score - 50 else score
      let score :=
        if goal = "gain muscle" then score + protein * 0.6 - calories * 0.05
        else if goal = "lose weight" then score - calories * 0.1 + protein * 0.2
        else if goal = "maintain" then score + protein * 0.3
        else score
      let score := fav_cuisines.foldl
        (fun sc fav => if fav ≠ "" ∧ pyIn fav name then sc + 5 else sc) score
      let score := dislikes.foldl
        (fun sc bad => if bad ≠ "" ∧ pyIn bad name then sc - 20 else sc) score
      score

/-- The ordering used by `scored.sort(key=lambda t: t[1], reverse=True)` at
src/app.py line 647: descending by score.  Python's sort is stable, and a
stable descending sort with no secondary key is exactly insertion sort with
this non-strict relation, so `List.insertionSort scoreGe` is its model. -/
def scoreGe (a b : MenuItem × ℚ) : Prop := b.2 ≤ a.2

instance : DecidableRel scoreGe := fun a b => inferInstanceAs (Decidable (b.2 ≤ a.2))

instance : IsTotal (MenuItem × ℚ) scoreGe := ⟨fun a b => le_total b.2 a.2⟩

instance : IsTrans (MenuItem × ℚ) scoreGe := ⟨fun _ _ _ h1 h2 => le_trans h2 h1⟩

/-- src/app.py lines 638-644: the loop that drops items violating the dietary
flags and pairs each survivor with its score (in input order). -/
def candidateScores (raw_items : List MenuItem) (prefs : Option UserPreferences)
    (dietary_flags : List String) : List (MenuItem × ℚ) :=
  (raw_items.filter (fun it => !(_violates_dietary_restrictions it dietary_flags))).map
    (fun it => (it, score_menu_item it prefs))

/-- src/app.py line 647: the candidates after the stable descending sort. -/
def sortedCandidates (raw_items : List MenuItem) (prefs : Option UserPreferences)
    (dietary_flags : List String) : List (MenuItem × ℚ) :=
  List.insertionSort scoreGe (candidateScores raw_items prefs dietary_flags)

/-- src/app.py lines 650-659: walk the sorted candidates, accept an item only
if its inferred category is unused, stop at 3 accepted items.  `recs` is the
`recommendations` list and `used` the `used_cats` set (as the list of added
categories). -/
def pickDiverse : List (MenuItem × ℚ) → List MenuItem → List String → List MenuItem
  | [], recs, _used => recs
  | (it, _sc) :: rest, recs, used =>
      let cat := infer_category it.name
      if cat ∈ used then
        pickDiverse rest recs used
      else if (recs ++ [it]).length = 3 then
        recs ++ [it]
      else
        pickDiverse rest (recs ++ [it]) (cat :: used)

/-- src/app.py lines 638-659: the full recommendation pipeline of the
dashboard view (filter, score, stable descending sort, diversified pick). -/
def recommend (raw_items : List MenuItem) (prefs : Option UserPreferences)
    (dietary_flags : List String) : List MenuItem :=
  pickDiverse (sortedCandidates raw_items prefs dietary_flags) [] []

/-- The four-field totals record of src/app.py line 692. -/
structure Totals where
  calories : ℚ
  protein : ℚ
  carbs : ℚ
  fat : ℚ
deriving DecidableEq, Repr

/-- One iteration of the totals loop at src/app.py lines 693-697. -/
def addItem (t : Totals) (r : MenuItem) : Totals :=
  ⟨t.calories + r.calories.getD 0,
   t.protein + r.protein.getD 0,
   t.carbs + r.carbs.getD 0,
   t.fat + r.fat.getD 0⟩

/-- src/app.py lines 692-697: the daily macro aggregation loop, starting from
the all-zero totals dict. -/
def aggregate (rows : List MenuItem) : Totals :=
  rows.foldl addItem ⟨0, 0, 0, 0⟩

/-- The three hard dietary penalty terms of src/helpers.py lines 69-74,
as a single sum. -/
def dietPenalty (dietary tags : List String) : ℚ :=
  (if "vegetarian" ∈ dietary ∧ "vegetarian" ∉ tags then (-100 : ℚ) else 0)
  + (if "vegan" ∈ dietary ∧ "vegan" ∉ tags then (-100 : ℚ) else 0)
  + (if "gluten-free" ∈ dietary ∧ "gluten-free" ∉ tags then (-50 : ℚ) else 0)

/-- The wellness-goal adjustment of src/helpers.py lines 77-84, as a term. -/
def goalAdjust (goal : String) (calories protein : ℚ) : ℚ :=
  if goal = "gain muscle" then protein * 0.6 - calories * 0.05
  else if goal = "lose weight" then -(calories * 0.1) + protein * 0.2
  else if goal = "maintain" then protein * 0.3
  else 0

/-- Number of non-empty tokens occurring as substrings of the (lower-cased)
item name: the match count of the loops at src/helpers.py lines 87-94. -/
def nameHits (tokens : List String) (name : String) : ℕ :=
  tokens.countP (fun t => decide (t ≠ "" ∧ pyIn t name))

lemma foldl_if_add_count (P : String → Prop) [DecidablePred P] (c : ℚ) :
    ∀ (l : List String) (b : ℚ),
      l.foldl (fun sc x => if P x then sc + c else sc) b
        = b + c * (l.countP (fun x => decide (P x)) : ℚ) := by
  intro l
  induction l with
  | nil => intro b; simp
  | cons x xs ih =>
      intro b
      by_cases h : P x
      · simp [List.foldl_cons, List.countP_cons, h, ih]
        ring
      · simp [List.foldl_cons, List.countP_cons, h, ih]

lemma foldl_if_sub_count (P : String → Prop) [DecidablePred P] (c : ℚ) :
    ∀ (l : List String) (b : ℚ),
      l.foldl (fun sc x => if P x then sc - c else sc) b
        = b - c * (l.countP (fun x => decide (P x)) : ℚ) := by
  intro l
  induction l with
  | nil => intro b; simp
  | cons x xs ih =>
      intro b
      by_cases h : P x
      · simp [List.foldl_cons, List.countP_cons, h, ih]
        ring
      · simp [List.foldl_cons, List.countP_cons, h, ih]

/-- Closed form of `score_menu_item` on the present-preferences path: the
sequentially accumulated score equals the sum of the penalty, goal, cuisine
and dislike terms. -/
lemma score_some_closed (item : MenuItem) (p : UserPreferences) :
    score_menu_item item (some p) =
      dietPenalty (parse_list_field p.dietary_restrictions) (parse_list_field item.tags)
      + goalAdjust (pyLower (p.wellness_goal.getD ""))
          (item.calories.getD 0) (item.protein.getD 0)
      + 5 * (nameHits (parse_list_field p.fav_cuisines) (pyLower (item.name.getD "")) : ℚ)
      - 20 * (nameHits (parse_list_field p.disliked_items) (pyLower (item.name.getD "")) : ℚ) := by
  unfold score_menu_item dietPenalty goalAdjust nameHits
  simp only
  rw [foldl_if_add_count (fun fav => fav ≠ "" ∧ pyIn fav (pyLower (item.name.getD "")))]
  rw [foldl_if_sub_count (fun bad => bad ≠ "" ∧ pyIn bad (pyLower (item.name.getD "")))]
  by_cases h1 : "vegetarian" ∈ parse_list_field p.dietary_restrictions
      ∧ "vegetarian" ∉ parse_list_field item.tags <;>
    by_cases h2 : "vegan" ∈ parse_list_field p.dietary_restrictions
        ∧ "vegan" ∉ parse_list_field item.tags <;>
      by_cases h3 : "gluten-free" ∈ parse_list_field p.dietary_restrictions
          ∧ "gluten-free" ∉ parse_list_field item.tags <;>
        by_cases g1 : pyLower (p.wellness_goal.getD "") = "gain muscle" <;>
          by_cases g2 : pyLower (p.wellness_goal.getD "") = "lose weight" <;>
            by_cases g3 : pyLower (p.wellness_goal.getD "") = "maintain" <;>
              simp [h1, h2, h3, g1, g2, g3] <;> ring

/-- Characterization of the dietary filter: it excludes an item exactly when
the vegetarian flag is set and a meat/seafood word occurs in the blob, or the
vegan flag is set and a meat/seafood or dairy/egg word occurs in the blob. -/
lemma violates_iff (item : MenuItem) (flags : List String) :
    _violates_dietary_restrictions item flags = true ↔
      ("vegetarian" ∈ flags
          ∧ (MEAT_WORDS ++ SEAFOOD_WORDS).any (fun w => pyIn w (itemBlob item)) = true)
      ∨ ("vegan" ∈ flags
          ∧ ((MEAT_WORDS ++ SEAFOOD_WORDS).any (fun w => pyIn w (itemBlob item)) = true
              ∨ DAIRY_EGG_WORDS.any (fun w => pyIn w (itemBlob item)) = true)) := by
  unfold _violates_dietary_restrictions
  by_cases h1 : "vegetarian" ∈ flags <;>
    by_cases h2 : "vegan" ∈ flags <;>
      by_cases hms : (MEAT_WORDS ++ SEAFOOD_WORDS).any (fun w => pyIn w (itemBlob item)) = true <;>
        by_cases hd : DAIRY_EGG_WORDS.any (fun w => pyIn w (itemBlob item)) = true <;>
          simp [h1, h2, hms, hd]

/-- C1 counterexample: `parse_list_field`, the normalization applied to the
dietary/cuisine/dislike/tag fields by the scorer, keeps empty tokens (so the
empty string can appear in the token list) and does not split on semicolons
(so a semicolon-separated field differs from the comma-separated one). -/
theorem c1_normalization_counterexample :
    "" ∈ parse_list_field (some "a, ,b")
    ∧ parse_list_field (some "a;b") ≠ parse_list_field (some "a,b") := by
  decide

/-- C1 amended: only the dietary-flag normalization of the filter
(`_load_dietary_flags`) lower-cases, splits on both commas and semicolons,
trims, and drops empty tokens, so the flag set never contains the empty
string; the scorer's normalization (`parse_list_field`) lower-cases, splits
on commas only, trims each token, and keeps empty tokens. -/
theorem c1_normalization_amended :
    (∀ prefs_row : Option UserPreferences, "" ∉ _load_dietary_flags prefs_row)
    ∧ _load_dietary_flags (some ⟨some "Vegetarian; Gluten Free", none, none, none⟩)
        = _load_dietary_flags (some ⟨some "Vegetarian, Gluten Free", none, none, none⟩)
    ∧ parse_list_field (some "Italian, Indian ") = ["italian", "indian"]
    ∧ parse_list_field (some "a;b") = ["a;b"] := by
  refine ⟨?_, by decide, by decide, by decide⟩
  intro row h
  match row with
  | none => exact absurd h (List.not_mem_nil "")
  | some p => simp [_load_dietary_flags, List.mem_filter] at h

/-- C1 witness: the flag set of a concrete messy field has no empty token. -/
theorem c1_normalization_witness :
    "" ∉ _load_dietary_flags (some ⟨some " , ; ,Vegan", none, none, none⟩) :=
  c1_normalization_amended.1 _

/-- C2: the dietary filter rejects an item iff the vegetarian flag is set and
the lower-cased name/tags blob contains a meat or seafood word, or the vegan
flag is set and the blob contains a meat, seafood, or dairy/egg word; with
neither flag every item is admissible, and {name: "Cheese Omelette", tags: ""}
is inadmissible under flags {"vegan"}. -/
theorem c2_dietary_filter_characterization :
    ∀ (item : MenuItem) (flags : List String),
      (_violates_dietary_restrictions item flags = true ↔
        ("vegetarian" ∈ flags
            ∧ (MEAT_WORDS ++ SEAFOOD_WORDS).any (fun w => pyIn w (itemBlob item)) = true)
        ∨ ("vegan" ∈ flags
            ∧ ((MEAT_WORDS ++ SEAFOOD_WORDS) ++ DAIRY_EGG_WORDS).any
                (fun w => pyIn w (itemBlob item)) = true))
      ∧ ("vegetarian" ∉ flags → "vegan" ∉ flags →
          _violates_dietary_restrictions item flags = false)
      ∧ _violates_dietary_restrictions
          ⟨some "Cheese Omelette", some "", none, none, none, none⟩ ["vegan"] = true := by
  intro item flags
  refine ⟨?_, ?_, by decide⟩
  · rw [violates_iff]
    simp [List.any_append, or_assoc]
  · intro hveg hvegan
    unfold _violates_dietary_restrictions
    simp [hveg, hvegan]

/-- C2 witness: flag sets without vegetarian/vegan never exclude, applied to a
meat-and-dairy item under a gluten-free flag. -/
theorem c2_dietary_filter_witness :
    _violates_dietary_restrictions
      ⟨some "Bacon Cheeseburger", some "contains gluten", none, none, none, none⟩
      ["gluten-free", "halal"] = false :=
  (c2_dietary_filter_characterization
      ⟨some "Bacon Cheeseburger", some "contains gluten", none, none, none, none⟩
      ["gluten-free", "halal"]).2.1 (by decide) (by decide)

/-- C3: with the preferences record absent the score is
protein*0.3 − calories*0.05, an absent calories or protein contributing 0;
the item with calories 400 and protein 20 scores −14. -/
theorem c3_cold_start_score :
    ∀ (nm tg : Option String) (c pr cb ft : Option ℚ),
      score_menu_item ⟨nm, tg, c, pr, cb, ft⟩ none
          = (pr.getD 0) * 0.3 - (c.getD 0) * 0.05
      ∧ score_menu_item ⟨nm, tg, none, none, cb, ft⟩ none = 0
      ∧ score_menu_item ⟨nm, tg, some 400, some 20, cb, ft⟩ none = -14 := by
  intro nm tg c pr cb ft
  exact ⟨rfl, by norm_num [score_menu_item], by norm_num [score_menu_item]⟩

/-- C4: with a present preferences record the score decomposes into the three
tag-based dietary penalties (−100 for vegetarian in the user's normalized
dietary list but not in the item's normalized tag list, −100 likewise for
vegan, −50 likewise for gluten-free) plus the score of the same item and
preferences with the tags and dietary restrictions removed — so no other
tag-based dietary contribution exists. -/
theorem c4_tag_penalty_decomposition :
    ∀ (item : MenuItem) (p : UserPreferences),
      score_menu_item item (some p) =
        (if "vegetarian" ∈ parse_list_field p.dietary_restrictions
            ∧ "vegetarian" ∉ parse_list_field item.tags then (-100 : ℚ) else 0)
        + (if "vegan" ∈ parse_list_field p.dietary_restrictions
            ∧ "vegan" ∉ parse_list_field item.tags then (-100 : ℚ) else 0)
        + (if "gluten-free" ∈ parse_list_field p.dietary_restrictions
            ∧ "gluten-free" ∉ parse_list_field item.tags then (-50 : ℚ) else 0)
        + score_menu_item ⟨item.name, none, item.calories, item.protein, item.carbs, item.fat⟩
            (some ⟨none, p.wellness_goal, p.fav_cuisines, p.disliked_items⟩) := by
  intro item p
  rw [score_some_closed, score_some_closed]
  dsimp only
  simp only [parse_list_field, dietPenalty]
  simp [List.not_mem_nil]
  ring

/-- C5: with a present preferences record the wellness-goal contribution is
protein*0.6 − calories*0.05 for "gain muscle", −calories*0.1 + protein*0.2
for "lose weight", protein*0.3 for "maintain" (goal compared after
lower-casing), and 0 for any other goal; with goal "gain muscle" and all
other preference fields empty, an item with calories 300, protein 30 and
empty tags scores 3. -/
theorem c5_wellness_goal_contribution :
    ∀ (item : MenuItem) (p : UserPreferences),
      score_menu_item item (some p) =
        score_menu_item item
          (some ⟨p.dietary_restrictions, none, p.fav_cuisines, p.disliked_items⟩)
        + goalAdjust (pyLower (p.wellness_goal.getD ""))
            (item.calories.getD 0) (item.protein.getD 0)
      ∧ score_menu_item ⟨some "Tofu Bowl", some "", some 300, some 30, none, none⟩
          (some ⟨some "", some "gain muscle", some "", some ""⟩) = 3 := by
  intro item p
  constructor
  · rw [score_some_closed, score_some_closed]
    dsimp only
    have h0 : goalAdjust (pyLower ((none : Option String).getD ""))
        (item.calories.getD 0) (item.protein.getD 0) = 0 := by
      have he : pyLower ((none : Option String).getD "") = "" := rfl
      rw [he]
      simp [goalAdjust]
    rw [h0]
    ring
  · have hg : pyLower "gain muscle" = "gain muscle" := by decide
    norm_num [score_menu_item, parse_list_field, hg]

/-- C9: a present preferences record whose dietary_restrictions, fav_cuisines
and disliked_items are empty or absent and whose wellness goal matches none
of the three known goals scores every item exactly 0, while the
absent-preferences cold-start path still uses calories and protein. -/
theorem c9_empty_prefs_score_zero :
    ∀ (item : MenuItem) (d f dl g : Option String),
      (d = none ∨ d = some "") → (f = none ∨ f = some "") → (dl = none ∨ dl = some "") →
      pyLower (g.getD "") ≠ "gain muscle" →
      pyLower (g.getD "") ≠ "lose weight" →
      pyLower (g.getD "") ≠ "maintain" →
      score_menu_item item (some ⟨d, g, f, dl⟩) = 0
      ∧ score_menu_item ⟨none, none, some 400, some 20, none, none⟩ none ≠ 0 := by
  intro item d f dl g hd hf hdl h1 h2 h3
  constructor
  · rw [score_some_closed]
    dsimp only
    have pd : parse_list_field d = [] := by
      rcases hd with h | h <;> simp [h, parse_list_field]
    have pf : parse_list_field f = [] := by
      rcases hf with h | h <;> simp [h, parse_list_field]
    have pdl : parse_list_field dl = [] := by
      rcases hdl with h | h <;> simp [h, parse_list_field]
    rw [pd, pf, pdl]
    simp [dietPenalty, goalAdjust, nameHits, h1, h2, h3]
  · norm_num [score_menu_item]

/-- C9 witness: a concrete high-calorie item scores 0 under present-but-empty
preferences with the unknown goal "Bulk Up". -/
theorem c9_empty_prefs_witness :
    score_menu_item ⟨some "Steak Frites", some "", some 900, some 60, none, none⟩
      (some ⟨none, some "Bulk Up", none, none⟩) = 0 :=
  (c9_empty_prefs_score_zero ⟨some "Steak Frites", some "", some 900, some 60, none, none⟩
      none none none (some "Bulk Up") (Or.inl rfl) (Or.inl rfl) (Or.inl rfl)
      (by decide) (by decide) (by decide)).1

/-- C10: if the filter rejects an item for a flag set containing vegetarian,
it also rejects that item for the same flag set with vegetarian replaced by
vegan. -/
theorem c10_vegetarian_reject_implies_vegan_reject :
    ∀ (item : MenuItem) (flags : List String),
      "vegetarian" ∈ flags →
      _violates_dietary_restrictions item flags = true →
      _violates_dietary_restrictions item
        ("vegan" :: flags.filter (fun fl => fl ≠ "vegetarian")) = true := by
  intro item flags _hmem hviol
  rw [violates_iff] at hviol ⊢
  rcases hviol with ⟨_, hms⟩ | ⟨_, hmsd⟩
  · exact Or.inr ⟨List.mem_cons_self _ _, Or.inl hms⟩
  · exact Or.inr ⟨List.mem_cons_self _ _, hmsd⟩

/-- C10 witness: "Chicken Soup" is rejected under {vegetarian}, hence also
under {vegan}. -/
theorem c10_vegetarian_to_vegan_witness :
    _violates_dietary_restrictions ⟨some "Chicken Soup", some "", none, none, none, none⟩
      ("vegan" :: (["vegetarian"].filter (fun fl => fl ≠ "vegetarian"))) = true :=
  c10_vegetarian_reject_implies_vegan_reject
    ⟨some "Chicken Soup", some "", none, none, none, none⟩
    ["vegetarian"] (by decide) (by decide)

/-- Running the totals loop from an arbitrary start equals the start plus the
totals computed from zero, in each field. -/
lemma foldl_addItem_split :
    ∀ (B : List MenuItem) (t : Totals),
      (B.foldl addItem t).calories
          = t.calories + (B.foldl addItem ⟨0, 0, 0, 0⟩).calories
      ∧ (B.foldl addItem t).protein
          = t.protein + (B.foldl addItem ⟨0, 0, 0, 0⟩).protein
      ∧ (B.foldl addItem t).carbs
          = t.carbs + (B.foldl addItem ⟨0, 0, 0, 0⟩).carbs
      ∧ (B.foldl addItem t).fat
          = t.fat + (B.foldl addItem ⟨0, 0, 0, 0⟩).fat := by
  intro B
  induction B with
  | nil => intro t; simp
  | cons r B ih =>
      intro t
      obtain ⟨a1, a2, a3, a4⟩ := ih (addItem t r)
      obtain ⟨b1, b2, b3, b4⟩ := ih (addItem ⟨0, 0, 0, 0⟩ r)
      refine ⟨?_, ?_, ?_, ?_⟩
      · rw [List.foldl_cons, List.foldl_cons, a1, b1]; simp [addItem]; ring
      · rw [List.foldl_cons, List.foldl_cons, a2, b2]; simp [addItem]; ring
      · rw [List.foldl_cons, List.foldl_cons, a3, b3]; simp [addItem]; ring
      · rw [List.foldl_cons, List.foldl_cons, a4, b4]; simp [addItem]; ring

/-- C8: the daily macro aggregator is additive over list concatenation in each
of its four fields, and the aggregate of the empty list is all zeros (an
absent numeric field contributing 0 is visible in `addItem`'s `getD 0`). -/
theorem c8_aggregate_additive :
    ∀ (A B : List MenuItem),
      (aggregate (A ++ B)).calories = (aggregate A).calories + (aggregate B).calories
      ∧ (aggregate (A ++ B)).protein = (aggregate A).protein + (aggregate B).protein
      ∧ (aggregate (A ++ B)).carbs = (aggregate A).carbs + (aggregate B).carbs
      ∧ (aggregate (A ++ B)).fat = (aggregate A).fat + (aggregate B).fat
      ∧ aggregate [] = ⟨0, 0, 0, 0⟩
      ∧ aggregate [⟨none, none, none, some 7, none, none⟩] = ⟨0, 7, 0, 0⟩ := by
  intro A B
  have key : aggregate (A ++ B) = B.foldl addItem (aggregate A) := by
    simp [aggregate, List.foldl_append]
  obtain ⟨h1, h2, h3, h4⟩ := foldl_addItem_split B (aggregate A)
  refine ⟨?_, ?_, ?_, ?_, rfl, by simp [aggregate, addItem]⟩
  · rw [key]; exact h1
  · rw [key]; exact h2
  · rw [key]; exact h3
  · rw [key]; exact h4

/-- Inserting a candidate into a list leaves the subsequence of any fixed
score unchanged up to placing the inserted element first: equal-score members
are never overtaken, because insertion stops strictly before them. -/
lemma filter_score_orderedInsert (q : ℚ) (x : MenuItem × ℚ) :
    ∀ l : List (MenuItem × ℚ),
      (List.orderedInsert scoreGe x l).filter (fun z => decide (z.2 = q))
        = (x :: l).filter (fun z => decide (z.2 = q)) := by
  intro l
  induction l with
  | nil => rfl
  | cons y ys ih =>
      by_cases h : scoreGe x y
      · simp [List.orderedInsert, h]
      · have hxy : x.2 < y.2 := not_le.mp h
        simp only [List.orderedInsert, if_neg h]
        by_cases hy : y.2 = q
        · have hx : ¬ x.2 = q := by
            rw [hy] at hxy; exact ne_of_lt hxy
          simp only [List.filter_cons, hx] at ih ⊢
          rw [ih]
          simp [hy]
        · simp only [List.filter_cons, hy] at ih ⊢
          rw [ih]
          simp [List.filter_cons, hy]

/-- Stability of the descending insertion sort: for every fixed score the
subsequence of candidates carrying that score is unchanged by sorting. -/
lemma filter_score_insertionSort (q : ℚ) :
    ∀ l : List (MenuItem × ℚ),
      (List.insertionSort scoreGe l).filter (fun z => decide (z.2 = q))
        = l.filter (fun z => decide (z.2 = q)) := by
  intro l
  induction l with
  | nil => rfl
  | cons x xs ih =>
      rw [List.insertionSort, filter_score_orderedInsert]
      simp [List.filter_cons, ih]

/-- C7: the sorted candidate list is ordered by score descending, and for any
fixed score the candidates carrying it keep the relative order in which they
survived filtering (the sort is stable), so the output is determined by the
input order. -/
theorem c7_sort_descending_and_stable :
    ∀ (items : List MenuItem) (prefs : Option UserPreferences)
      (flags : List String) (q : ℚ),
      (sortedCandidates items prefs flags).Pairwise (fun a b => b.2 ≤ a.2)
      ∧ (sortedCandidates items prefs flags).filter (fun z => decide (z.2 = q))
          = (candidateScores items prefs flags).filter (fun z => decide (z.2 = q)) := by
  intro items prefs flags q
  exact ⟨List.sorted_insertionSort scoreGe (candidateScores items prefs flags),
    filter_score_insertionSort q (candidateScores items prefs flags)⟩

/-- The greedy pick keeps the accepted categories pairwise distinct, given
that the accumulated categories are distinct and all recorded as used. -/
lemma pickDiverse_nodup_cats :
    ∀ (l : List (MenuItem × ℚ)) (recs : List MenuItem) (used : List String),
      (recs.map (fun it => infer_category it.name)).Nodup →
      (∀ it ∈ recs, infer_category it.name ∈ used) →
      ((pickDiverse l recs used).map (fun it => infer_category it.name)).Nodup := by
  intro l
  induction l with
  | nil => intro recs used hnd _; simpa [pickDiverse] using hnd
  | cons x rest ih =>
      intro recs used hnd hsub
      obtain ⟨it, sc⟩ := x
      simp only [pickDiverse]
      by_cases hc : infer_category it.name ∈ used
      · simp only [if_pos hc]
        exact ih recs used hnd hsub
      · have hnotin : infer_category it.name
            ∉ recs.map (fun it => infer_category it.name) := by
          intro hmem
          obtain ⟨it', hit', heq⟩ := List.mem_map.mp hmem
          exact hc (heq ▸ hsub it' hit')
        have hnd' : ((recs ++ [it]).map (fun it => infer_category it.name)).Nodup := by
          rw [List.map_append]
          exact List.Nodup.append hnd (List.nodup_singleton _)
            (List.disjoint_singleton.mpr hnotin)
        simp only [if_neg hc]
        by_cases hlen : (recs ++ [it]).length = 3
        · simp only [if_pos hlen]; exact hnd'
        · simp only [if_neg hlen]
          refine ih (recs ++ [it]) (infer_category it.name :: used) hnd' ?_
          intro it' hit'
          rcases List.mem_append.mp hit' with h | h
          · exact List.mem_cons_of_mem _ (hsub it' h)
          · rw [List.mem_singleton.mp h]
            exact List.mem_cons_self _ _

/-- The greedy pick never returns more than 3 items when it starts with at
most 2 accepted. -/
lemma pickDiverse_length_le :
    ∀ (l : List (MenuItem × ℚ)) (recs : List MenuItem) (used : List String),
      recs.length ≤ 2 → (pickDiverse l recs used).length ≤ 3 := by
  intro l
  induction l with
  | nil => intro recs used h; simpa [pickDiverse] using le_trans h (by norm_num)
  | cons x rest ih =>
      intro recs used h
      obtain ⟨it, sc⟩ := x
      simp only [pickDiverse]
      by_cases hc : infer_category it.name ∈ used
      · simp only [if_pos hc]; exact ih recs used h
      · simp only [if_neg hc]
        by_cases hlen : (recs ++ [it]).length = 3
        · simp only [if_pos hlen]; omega
        · simp only [if_neg hlen]
          refine ih (recs ++ [it]) _ ?_
          have : (recs ++ [it]).length = recs.length + 1 := by simp
          omega

/-- Every item returned by the greedy pick comes from the accumulator or from
the candidate list. -/
lemma pickDiverse_mem :
    ∀ (l : List (MenuItem × ℚ)) (recs : List MenuItem) (used : List String)
      (x : MenuItem),
      x ∈ pickDiverse l recs used → x ∈ recs ∨ x ∈ l.map Prod.fst := by
  intro l
  induction l with
  | nil => intro recs used x hx; left; simpa [pickDiverse] using hx
  | cons y rest ih =>
      intro recs used x hx
      obtain ⟨it, sc⟩ := y
      simp only [pickDiverse] at hx
      by_cases hc : infer_category it.name ∈ used
      · rw [if_pos hc] at hx
        rcases ih recs used x hx with h | h
        · exact Or.inl h
        · exact Or.inr (List.mem_cons_of_mem _ h)
      · rw [if_neg hc] at hx
        by_cases hlen : (recs ++ [it]).length = 3
        · rw [if_pos hlen] at hx
          rcases List.mem_append.mp hx with h | h
          · exact Or.inl h
          · exact Or.inr (List.mem_singleton.mp h ▸ List.mem_cons_self _ _)
        · rw [if_neg hlen] at hx
          rcases ih (recs ++ [it]) _ x hx with h | h
          · rcases List.mem_append.mp h with h' | h'
            · exact Or.inl h'
            · exact Or.inr (List.mem_singleton.mp h' ▸ List.mem_cons_self _ _)
          · exact Or.inr (List.mem_cons_of_mem _ h)

/-- A duplicate-free list contained in another list is no longer than the
other list's deduplication. -/
lemma nodup_subset_length_le_dedup (l1 l2 : List String) :
    l1.Nodup → l1 ⊆ l2 → l1.length ≤ l2.dedup.length := by
  intro h1 hsub
  have hsub' : l1.toFinset ⊆ l2.toFinset := by
    intro a ha
    rw [List.mem_toFinset] at ha ⊢
    exact hsub ha
  calc l1.length = l1.toFinset.card := (List.toFinset_card_of_nodup h1).symm
    _ ≤ l2.toFinset.card := Finset.card_le_card hsub'
    _ = l2.dedup.length := List.card_toFinset l2

/-- C6: no two recommended items share an inferred category, the result has
at most min(3, number of distinct inferred categories among the admissible
items) elements, and the empty input yields the empty result. -/
theorem c6_recommendation_diversity_and_cardinality :
    ∀ (items : List MenuItem) (prefs : Option UserPreferences) (flags : List String),
      ((recommend items prefs flags).map (fun it => infer_category it.name)).Nodup
      ∧ (recommend items prefs flags).length ≤
          min 3 (((items.filter
              (fun it => !(_violates_dietary_restrictions it flags))).map
                (fun it => infer_category it.name)).dedup.length)
      ∧ recommend [] prefs flags = [] := by
  intro items prefs flags
  have hnd : ((recommend items prefs flags).map
      (fun it => infer_category it.name)).Nodup :=
    pickDiverse_nodup_cats (sortedCandidates items prefs flags) [] []
      (by simp) (by simp)
  refine ⟨hnd, ?_, rfl⟩
  rw [le_min_iff]
  constructor
  · exact pickDiverse_length_le (sortedCandidates items prefs flags) [] [] (by simp)
  · have hsub : ((recommend items prefs flags).map (fun it => infer_category it.name)) ⊆
        (((sortedCandidates items prefs flags).map Prod.fst).map
          (fun it => infer_category it.name)) := by
      intro c hc
      obtain ⟨it, hit, rfl⟩ := List.mem_map.mp hc
      rcases pickDiverse_mem (sortedCandidates items prefs flags) [] [] it hit with h | h
      · exact absurd h (List.not_mem_nil it)
      · exact List.mem_map_of_mem _ h
    have hle := nodup_subset_length_le_dedup _ _ hnd hsub
    have h1 : List.Perm (sortedCandidates items prefs flags)
        (candidateScores items prefs flags) :=
      List.perm_insertionSort scoreGe _
    have h3 : (candidateScores items prefs flags).map Prod.fst
        = items.filter (fun it => !(_violates_dietary_restrictions it flags)) := by
      rw [candidateScores, List.map_map]
      have hcomp : (Prod.fst ∘ fun it : MenuItem => (it, score_menu_item it prefs))
          = fun it : MenuItem => it := rfl
      rw [hcomp]
      exact List.map_id' _
    have h2 : List.Perm
        (((sortedCandidates items prefs flags).map Prod.fst).map
          (fun it => infer_category it.name))
        ((items.filter (fun it => !(_violates_dietary_restrictions it flags))).map
          (fun it => infer_category it.name)) := by
      have hm := (h1.map Prod.fst).map (fun it => infer_category it.name)
      rwa [h3] at hm
    calc (recommend items prefs flags).length
        = ((recommend items prefs flags).map
            (fun it => infer_category it.name)).length := (List.length_map _ _).symm
      _ ≤ (((sortedCandidates items prefs flags).map Prod.fst).map
            (fun it => infer_category it.name)).dedup.length := hle
      _ = ((items.filter (fun it => !(_violates_dietary_restrictions it flags))).map
            (fun it => infer_category it.name)).dedup.length := h2.dedup.length_eq
